import Mathlib

/-!
Verification of the quantitative risk engine of `app.py` (energy portfolio
risk-premium pricer).

The embedding is a shallow one over exact rationals `ℚ` (the Python code
computes with IEEE doubles; all claims under verification are about the
real-arithmetic content of the algorithms).  NumPy conventions that the
code relies on are modelled explicitly:

* `np.sort` returns an ascending-sorted copy (`npSortQ`);
* integer indexing accepts negative indices, counting from the end
  (`npGet`), and slicing `s[i:]` likewise (`npDrop`);
* `np.mean` is sum divided by length (`npMean`).

Square roots appear in the simulation engine (Cholesky factor, AR(1)
innovation scale, GARCH volatility).  They are not rational, so the
simulation embedding takes the square-root function as an explicit
parameter `rt : ℚ → ℚ`; every theorem about the engine holds for an
arbitrary `rt`, in particular for the true square root.
-/

/- ═══════════════ §13 Risk metrics (`compute_risk_metrics`) ═══════════════ -/

/-- Ascending sort, modelling `np.sort(losses)` (a sorted copy of the
sample; for rational values the ascending rearrangement is unique). -/
def npSortQ (l : List ℚ) : List ℚ := List.insertionSort (· ≤ ·) l

/-- `np.mean`: sum divided by length (only ever applied to non-empty
samples in the code under verification). -/
def npMean (l : List ℚ) : ℚ := l.sum / l.length

/-- NumPy integer indexing `s[i]`: a negative index counts from the end. -/
def npGet (s : List ℚ) (i : ℤ) : ℚ :=
  if 0 ≤ i then s.getD i.toNat 0 else s.getD (i + s.length).toNat 0

/-- Python slice `s[i:]`: a negative start counts from the end (clamped
at the front, as `Int.toNat` sends negatives to `0`). -/
def npDrop (s : List ℚ) (i : ℤ) : List ℚ :=
  if 0 ≤ i then s.drop i.toNat else s.drop (i + s.length).toNat

/-- `idx_var = min(int(np.floor(alpha * n)), n - 1)` from
`compute_risk_metrics` (Python `int` arithmetic, hence `ℤ`). -/
def idxVar (alpha : ℚ) (n : ℕ) : ℤ :=
  min (Int.floor (alpha * n)) ((n : ℤ) - 1)

/-- The tail `s[idx_var:]` of the ascending-sorted sample used for CVaR. -/
def varTail (losses : List ℚ) (alpha : ℚ) : List ℚ :=
  npDrop (npSortQ losses) (idxVar alpha losses.length)

/-- The fields of the `RiskMetrics` dataclass that the verified claims
touch.  The remaining fields (percentile ladder, higher moments, spectral
and entropic measures) are diagnostic floating-point statistics outside
the scope of the present claims.  Dataclass defaults are all zero / empty,
so `{}` models the `RiskMetrics()` returned for an empty sample. -/
structure RiskMetrics where
  EL : ℚ := 0
  std : ℚ := 0
  VaR : ℚ := 0
  CVaR : ℚ := 0
  UL : ℚ := 0
  min_val : ℚ := 0
  max_val : ℚ := 0
  n : ℕ := 0
  sorted : List ℚ := []
deriving Repr, DecidableEq

/-- Shallow embedding of `compute_risk_metrics` (src/app.py 3698-3770),
restricted to the fields of `RiskMetrics` under verification:

    n = len(losses); if n == 0: return RiskMetrics()
    s = np.sort(losses)
    el = np.mean(losses)
    idx_var = min(int(np.floor(alpha * n)), n - 1)
    var = s[idx_var]
    tail = s[idx_var:]
    cvar = tail.mean() if len(tail) > 0 else var
    ul = max(0.0, cvar - el)

`std` is `np.std(losses, ddof=1) if n > 1 else 0.0`; its value involves a
square root and is irrelevant to every claim below, so the embedding keeps
only the degenerate branch exactly (`0` when `n ≤ 1`) and otherwise stores
the sample variance (the quantity whose square root the code takes). -/
def compute_risk_metrics (losses : List ℚ) (alpha : ℚ) : RiskMetrics :=
  if losses.length = 0 then {} else
  let n := losses.length
  let s := npSortQ losses
  let el := npMean losses
  let iv := idxVar alpha n
  let var := npGet s iv
  let tail := npDrop s iv
  let cvar := if 0 < tail.length then npMean tail else var
  let ul := max 0 (cvar - el)
  let sampleVariance := (losses.map (fun x => (x - el) ^ 2)).sum / ((n : ℚ) - 1)
  { EL := el
    std := if 1 < n then sampleVariance else 0
    VaR := var
    CVaR := cvar
    UL := ul
    min_val := npGet s 0
    max_val := npGet s (-1)
    n := n
    sorted := s }

/- Spec-side definitions (from the spec's words, §4.2), to be compared
with the code embedding above. -/

/-- Modelled from the spec: "VaR is the empirical α_c-quantile (index
`floor(α_c·n)` of the ascending-sorted sample, clipped to the last
index)". -/
def varSpecIdx (alpha : ℚ) (n : ℕ) : ℕ :=
  min (Int.floor (alpha * n)).toNat (n - 1)

/-- Modelled from the spec: the VaR of a loss sample. -/
def varSpec (losses : List ℚ) (alpha : ℚ) : ℚ :=
  (npSortQ losses).getD (varSpecIdx alpha losses.length) 0

/-- Modelled from the spec: "CVaR is the mean of all samples at or beyond
the VaR index". -/
def cvarSpec (losses : List ℚ) (alpha : ℚ) : ℚ :=
  npMean ((npSortQ losses).drop (varSpecIdx alpha losses.length))

/- ══════════════ C10: frame behaviour of compute_risk_metrics ══════════════ -/

/-- `np.sort(losses)` as a buffer-threading operation: it allocates a new
sorted array and leaves its argument untouched (NumPy sorts in place only
via `arr.sort()` / `np.sort(..., out=...)`, neither of which the code
uses). -/
def npSortSt (buf : List ℚ) : List ℚ × List ℚ := (npSortQ buf, buf)

/-- `np.mean(losses)` as a buffer-threading operation: a pure reduction,
the argument is left untouched. -/
def npMeanSt (buf : List ℚ) : ℚ × List ℚ := (npMean buf, buf)

/-- `(losses - el) ** 2` as a buffer-threading operation: NumPy
broadcasting allocates a fresh array, the argument is left untouched
(the code never uses `out=` or an in-place `-=`/`**=` on `losses`). -/
def npCenterSqSt (c : ℚ) (buf : List ℚ) : List ℚ × List ℚ :=
  (buf.map fun x => (x - c) ^ 2, buf)

/-- `compute_risk_metrics` with the `losses` buffer threaded explicitly
through every operation that reads it, in source order; the second
component is the state of the caller's array when the function returns. -/
def compute_risk_metricsSt (losses : List ℚ) (alpha : ℚ) :
    RiskMetrics × List ℚ :=
  if losses.length = 0 then ({}, losses) else
  let step1 := npSortSt losses
  let s := step1.1
  let step2 := npMeanSt step1.2
  let el := step2.1
  let step3 := npCenterSqSt el step2.2
  let losses' := step3.2
  let n := losses'.length
  let iv := idxVar alpha n
  let var := npGet s iv
  let tail := npDrop s iv
  let cvar := if 0 < tail.length then npMean tail else var
  let ul := max 0 (cvar - el)
  let sampleVariance := step3.1.sum / ((n : ℚ) - 1)
  ({ EL := el
     std := if 1 < n then sampleVariance else 0
     VaR := var
     CVaR := cvar
     UL := ul
     min_val := npGet s 0
     max_val := npGet s (-1)
     n := n
     sorted := s }, losses')

/- ═══════════ §15 Stress-test evaluator (`run_stress_test`) ═══════════ -/

/-- The fields of a `STRESS_SCENARIOS` entry that `run_stress_test`
computes with (descriptions, icons, severity labels and historical notes
are presentation data). -/
structure StressScenario where
  price_shock : ℚ
  vol_shock : ℚ
  duration_hours : ℚ
deriving Repr, DecidableEq

/-- The six named entries of `STRESS_SCENARIOS` (src/app.py 4168-4247):
Dunkelflaute, Gaskrise (2022-Typ), Polar Vortex, Negativ-Preise (Solar),
Kernkraft-Ausfall FR, Milder Winter. -/
def dunkelflaute : StressScenario := ⟨350, 20/100, 336⟩

def gaskrise : StressScenario := ⟨180, -(5/100), 2160⟩

def polarVortex : StressScenario := ⟨200, 35/100, 168⟩

def negativPreise : StressScenario := ⟨-130, -(10/100), 50⟩

def kernkraftAusfall : StressScenario := ⟨60, 2/100, 2880⟩

def milderWinter : StressScenario := ⟨-30, -(15/100), 4320⟩

def stressScenarios : List StressScenario :=
  [dunkelflaute, gaskrise, polarVortex, negativPreise, kernkraftAusfall,
   milderWinter]

/-- The fields of `PortfolioData` that `run_stress_test` reads: the hourly
load series and the stored hour count `n_hours` (equal to `len(load)` for
every dataset the app builds). -/
structure StressData where
  load : List ℚ
  n_hours : ℕ
deriving Repr, DecidableEq

/-- The result record of `run_stress_test` (numeric fields only). -/
structure StressResult where
  vp_loss : ℚ
  imb_loss : ℚ
  struct_impact : ℚ
  total : ℚ
  per_mwh : ℚ
deriving Repr, DecidableEq

/-- Shallow embedding of `run_stress_test` (src/app.py 4279-4321):

    T = data.n_hours; Vt = data.load.sum(); avg_load = data.load.mean()
    vp_loss = avg_load * dv * dp * dur
    stress_penalty = 40.0
    imb_loss = abs(avg_load * dv) * stress_penalty * dur
    affected_fraction = min(1.0, dur / T)
    hedge_ratio = 0.3
    struct_impact = dp * Vt * affected_fraction * (1.0 - hedge_ratio)
    total = vp_loss + imb_loss + struct_impact
    per_mwh = total / Vt if Vt > 0 else 0
-/
def run_stress_test (data : StressData) (sc : StressScenario) : StressResult :=
  let T : ℚ := data.n_hours
  let Vt := data.load.sum
  let avg_load := npMean data.load
  let dur := sc.duration_hours
  let dp := sc.price_shock
  let dv := sc.vol_shock
  let vp_loss := avg_load * dv * dp * dur
  let stress_penalty : ℚ := 40
  let imb_loss := |avg_load * dv| * stress_penalty * dur
  let affected_fraction := min 1 (dur / T)
  let hedge_ratio : ℚ := 3/10
  let struct_impact := dp * Vt * affected_fraction * (1 - hedge_ratio)
  let total := vp_loss + imb_loss + struct_impact
  let per_mwh := if 0 < Vt then total / Vt else 0
  ⟨vp_loss, imb_loss, struct_impact, total, per_mwh⟩

/- ═══════════ §14 Monte-Carlo simulation engine (`run_simulation`) ═══════════ -/

/-- `_seasonal_vol_multiplier` (src/app.py 3807-3828): calendar-month
dependent volatility scaling, `SEASONAL_VOL.get(month, 1.0)`. -/
def seasonalVolMultiplier (month : ℕ) : ℚ :=
  if month = 1 then 142/100 else if month = 2 then 138/100 else
  if month = 3 then 118/100 else if month = 4 then 102/100 else
  if month = 5 then 88/100 else if month = 6 then 82/100 else
  if month = 7 then 78/100 else if month = 8 then 82/100 else
  if month = 9 then 92/100 else if month = 10 then 108/100 else
  if month = 11 then 122/100 else if month = 12 then 145/100 else 1

/-- The `HOUR_SCALE` table of `_hour_imbalance_scale`
(src/app.py 3831-3847). -/
def hourScaleTable : List ℚ :=
  [65/100, 58/100, 52/100, 50/100, 52/100, 60/100,
   78/100, 105/100, 125/100, 130/100, 120/100, 115/100,
   110/100, 112/100, 115/100, 120/100, 130/100, 145/100,
   155/100, 150/100, 135/100, 115/100, 90/100, 72/100]

/-- `_hour_imbalance_scale(hour) = HOUR_SCALE[hour]` (hours are 0-23;
out-of-range defaults to 0, which never occurs for calendar data). -/
def hourImbalanceScale (hour : ℕ) : ℚ := hourScaleTable.getD hour 0

/-- The parameters `run_simulation` unpacks from the sidebar `params`
dict (src/app.py 3903-3918).  `vol_error` and `correlation` are the raw
percent figures; the engine divides them by 100 itself. -/
structure SimParams where
  paths : ℕ
  kappa : ℚ
  sigma_price : ℚ
  vol_error : ℚ
  phi : ℚ
  correlation : ℚ
  jump_prob : ℚ
  jump_size : ℚ
  garch_enabled : Bool
  garch_omega : ℚ
  garch_alpha : ℚ
  garch_beta : ℚ
deriving Repr, DecidableEq

/-- The fields of `PortfolioData` the simulation loop reads.  The
timestamps enter only through the calendar month and the hour of day, so
they are carried as the per-hour series `months` / `hours`. -/
structure SimData where
  hpfc : List ℚ
  load : List ℚ
  year_map : List ℕ
  n_years : ℕ
  n_hours : ℕ
  months : List ℕ
  hours : List ℕ
deriving Repr, DecidableEq

/-- The random numbers one path consumes in one hour of the loop
(src/app.py 3962-4008): the two standard-normal innovations `z1`, `z2`,
the uniform variate `u` deciding jump arrival, the `Normal(0, σ_J)`
variate `jz` drawn for the jump size, and the standard-normal variate
`pz` behind the half-normal penalty spread.  The engine consumes them as
an oracle stream; their distribution plays no role in the claims. -/
structure PathDraws where
  z1 : ℚ
  z2 : ℚ
  u : ℚ
  jz : ℚ
  pz : ℚ
deriving Repr, DecidableEq

/-- Per-path state: current spot, current AR(1) volume error, current
GARCH conditional variance, and this path's row of the two `N × Y` loss
accumulators. -/
structure PathState where
  spot : ℚ
  vs : ℚ
  g_var : ℚ
  imbRow : List ℚ
  vpRow : List ℚ
deriving Repr, DecidableEq

/-- `row[y] += v` (the per-path slice of `imb[:, y] += ...`). -/
def addAt : List ℚ → ℕ → ℚ → List ℚ
  | [], _, _ => []
  | x :: xs, 0, v => (x + v) :: xs
  | x :: xs, y + 1, v => x :: addAt xs y v

/-- The argument of the Cholesky square root:
`L11 = np.sqrt(max(1e-12, 1.0 - rho ** 2))` (src/app.py 3921). -/
def cholArg (rho : ℚ) : ℚ := max (1/10^12) (1 - rho^2)

/-- The argument of the AR(1) innovation-scale square root:
`phi_f = np.sqrt(max(1e-12, 1.0 - phi ** 2))` (src/app.py 3922).  For
`φ ≥ 1` this silently clamps the variance argument to `1e-12` instead of
rejecting the parameter. -/
def arScaleArg (phi : ℚ) : ℚ := max (1/10^12) (1 - phi^2)

/-- One hour `t` of the main simulation loop (src/app.py 3952-4019) for a
single path.  The NumPy loop body is element-wise across paths (every
operation is a vectorised arithmetic op, a clip, or an accumulation into
this path's row), so the per-path scalar step composed over paths is the
vectorised hour step.  `rt` is the square-root function (`np.sqrt`). -/
def simStep (rt : ℚ → ℚ) (p : SimParams) (d : SimData) (t : ℕ)
    (dr : PathDraws) (st : PathState) : PathState :=
  let rho := p.correlation / 100
  let sig_v := p.vol_error / 100
  let L11 := rt (cholArg rho)
  let phi_f := rt (arScaleArg p.phi)
  let hpfc_t := d.hpfc.getD t 0
  let load_t := d.load.getD t 0
  let y := d.year_map.getD t 0
  let s_vol := seasonalVolMultiplier (d.months.getD t 0)
  let dw_p := dr.z1
  let dw_v := rho * dr.z1 + L11 * dr.z2
  let garch := if p.garch_enabled then
      let innovation_sq := (rt st.g_var * dw_p) ^ 2
      let gv := p.garch_omega + p.garch_alpha * innovation_sq +
        p.garch_beta * st.g_var
      let gv := min 8000 (max (1/2) gv)
      (gv, rt gv * s_vol)
    else (st.g_var, p.sigma_price * s_vol)
  let g_var' := garch.1
  let sig_t := garch.2
  let jump := if dr.u < p.jump_prob then dr.jz else 0
  let spot' := min 3000 (max (-200)
    (st.spot + p.kappa * (hpfc_t - st.spot) + sig_t * dw_p + jump))
  let vs' := p.phi * st.vs + phi_f * sig_v * dw_v
  let actual_load := max 0 (load_t * (1 + vs'))
  let delta_q := actual_load - load_t
  let penalty_total := (5 + |dr.pz| * 15) * hourImbalanceScale (d.hours.getD t 0)
  { spot := spot'
    vs := vs'
    g_var := g_var'
    imbRow := addAt st.imbRow y (|delta_q| * penalty_total)
    vpRow := addAt st.vpRow y (delta_q * (spot' - hpfc_t)) }

/-- The initial per-path state (src/app.py 3932-3936): spot starts at
`hpfc[0]`, the volume error at zero, the GARCH variance at
`sigma_price²`, and both accumulator rows at zero. -/
def initState (d : SimData) (p : SimParams) : PathState :=
  { spot := d.hpfc.getD 0 0
    vs := 0
    g_var := p.sigma_price ^ 2
    imbRow := List.replicate d.n_years 0
    vpRow := List.replicate d.n_years 0 }

/-- One full path: the sequential loop `for t in range(T)`. -/
def runPath (rt : ℚ → ℚ) (p : SimParams) (d : SimData)
    (draws : ℕ → PathDraws) : PathState :=
  (List.range d.n_hours).foldl (fun st t => simStep rt p d t (draws t) st)
    (initState d p)

/-- Shallow embedding of the loss-accumulation core of `run_simulation`
(src/app.py 3850-4040): it performs no parameter validation, allocates
the accumulators, runs the hourly loop and returns the per-path results.
`draws i t` are the random numbers path `i` consumes in hour `t` (the
per-path/per-hour stream assignment of the seeded global NumPy RNG). -/
def run_simulation (rt : ℚ → ℚ) (p : SimParams) (d : SimData)
    (draws : ℕ → ℕ → PathDraws) : List PathState :=
  (List.range p.paths).map fun i => runPath rt p d (draws i)

/- Concrete instances used to evaluate the engine on explicit inputs. -/

/-- A one-hour, one-year dataset: HPFC 10 €/MWh, load 1 MWh, January,
hour 0. -/
def simDataUnit : SimData := ⟨[10], [1], [0], 1, 1, [1], [0]⟩

/-- A square-root oracle that is exact at every argument the
`simParamsJump` configuration feeds it (`cholArg 0 = arScaleArg 0 = 1`,
and `√1 = 1`). -/
def rtOne : ℚ → ℚ := fun _ => 1

/-- One path, κ = 0, σ_price = 0, vol_error = 100 %, φ = 0, ρ = 0,
jump probability 1, jump size 100, GARCH off. -/
def simParamsJump : SimParams :=
  ⟨1, 0, 0, 100, 0, 0, 1, 100, false, 5, 8/100, 88/100⟩

/-- Draws producing an upward jump: `z2 = 1/2` (volume error +50 %) and a
jump of +100 €/MWh. -/
def drawsUp : ℕ → ℕ → PathDraws := fun _ _ => ⟨0, 1/2, 0, 100, 0⟩

/-- Draws producing a downward jump of −300 €/MWh (spot clipped at
−200). -/
def drawsDown : ℕ → ℕ → PathDraws := fun _ _ => ⟨0, 1/2, 0, -300, 0⟩

/- ═══════ C3: absence of parameter validation in `run_simulation` ═══════ -/

/-- Invalid AR(1) persistence `φ = 3/2 ≥ 1` (all other parameters inert:
one path, no diffusion, no jumps, GARCH off). -/
def simParamsBadPhi : SimParams :=
  ⟨1, 0, 0, 0, 3/2, 0, 0, 0, false, 5, 8/100, 88/100⟩

/-- Invalid GARCH calibration `α + β = 1/2 + 3/5 = 11/10 ≥ 1` with GARCH
enabled. -/
def simParamsBadGarch : SimParams :=
  ⟨1, 0, 0, 0, 0, 0, 0, 0, true, 5, 1/2, 3/5⟩

/-- A path count of zero (`N ≤ 0`). -/
def simParamsZeroPaths : SimParams :=
  ⟨0, 0, 0, 0, 0, 0, 0, 0, false, 5, 8/100, 88/100⟩

/-- All-zero draw stream. -/
def drawsZero : ℕ → ℕ → PathDraws := fun _ _ => ⟨0, 0, 0, 0, 0⟩

/- ═══════ §16 Sensitivity analysis (`_analytical_premium_approx`) ═══════ -/

/-- The entries of `results["total"]` that the sensitivity module reads:
total premium (`gesamt`), structural premium (`struktur`), forecast-risk
premium (`prognose`) and volume-price premium (`vp_prem`), in €/MWh.
Real-valued, as the branch under verification takes a true square root. -/
structure BaseResult where
  gesamt : ℝ
  struktur : ℝ
  prognose : ℝ
  vp_prem : ℝ

/-- `orig_eff` / `new_eff` of the `"phi"` branch of
`_analytical_premium_approx` (src/app.py 4412-4413):
`1.0 / max(1e-6, 1.0 - phi ** 2)`, the effective AR(1) variance with the
denominator floored at `1e-6`. -/
noncomputable def effAR1Var (phi : ℝ) : ℝ := 1 / max (1/1000000) (1 - phi ^ 2)

/-- Shallow embedding of the `param_name == "phi"` branch of
`_analytical_premium_approx` (src/app.py 4410-4419):

    orig_eff = 1.0 / max(1e-6, 1.0 - orig ** 2)
    new_eff  = 1.0 / max(1e-6, 1.0 - new_value ** 2)
    ratio = np.sqrt(new_eff / orig_eff) if orig_eff > 0 else 1.0
    return (base["struktur"] + base["prognose"] * min(5.0, ratio)
            + base["vp_prem"] * min(5.0, ratio))
-/
noncomputable def analyticalPremiumApproxPhi (phi_orig : ℝ) (base : BaseResult)
    (new_value : ℝ) : ℝ :=
  let orig_eff := effAR1Var phi_orig
  let new_eff := effAR1Var new_value
  let ratio := if 0 < orig_eff then Real.sqrt (new_eff / orig_eff) else 1
  base.struktur + base.prognose * min 5 ratio + base.vp_prem * min 5 ratio

/- ═══════════════════════ Lemmas and theorems ═══════════════════════ -/

example : compute_risk_metrics [3, 1, 2] (1/2) =
    { EL := 2, std := 1, VaR := 2, CVaR := 5/2, UL := 1/2,
      min_val := 1, max_val := 3, n := 3, sorted := [1, 2, 3] } := by
  norm_num [compute_risk_metrics, npSortQ, npMean, npGet, npDrop, idxVar,
    List.insertionSort, List.orderedInsert, List.getD, Int.toNat]

example : varSpec [3, 1, 2] (1/2) = 2 ∧ cvarSpec [3, 1, 2] (1/2) = 5/2 := by
  norm_num [varSpec, cvarSpec, varSpecIdx, npSortQ, npMean,
    List.insertionSort, List.orderedInsert]

/- ════════════════ Supporting lemmas about the embedding ════════════════ -/

lemma npSortQ_sorted (l : List ℚ) : List.Sorted (· ≤ ·) (npSortQ l) :=
  List.sorted_insertionSort _ l

lemma npSortQ_perm (l : List ℚ) : (npSortQ l).Perm l :=
  List.perm_insertionSort _ l

lemma npSortQ_length (l : List ℚ) : (npSortQ l).length = l.length :=
  (npSortQ_perm l).length_eq

lemma npGet_coe (s : List ℚ) (k : ℕ) : npGet s (k : ℤ) = s.getD k 0 := by
  simp [npGet]

lemma npDrop_coe (s : List ℚ) (k : ℕ) : npDrop s (k : ℤ) = s.drop k := by
  simp [npDrop]

lemma mul_length_le_sum (l : List ℚ) (a : ℚ) (h : ∀ x ∈ l, a ≤ x) :
    a * l.length ≤ l.sum := by
  induction l with
  | nil => simp
  | cons y ys ih =>
    have hy : a ≤ y := h y (by simp)
    have hys : a * ys.length ≤ ys.sum :=
      ih fun x hx => h x (List.mem_cons_of_mem _ hx)
    simp only [List.sum_cons, List.length_cons]
    push_cast
    nlinarith

lemma sum_eq_mul_length_iff (l : List ℚ) (a : ℚ) (h : ∀ x ∈ l, a ≤ x) :
    l.sum = a * l.length ↔ ∀ x ∈ l, x = a := by
  induction l with
  | nil => simp
  | cons y ys ih =>
    have hy : a ≤ y := h y (by simp)
    have hys : a * ys.length ≤ ys.sum :=
      mul_length_le_sum ys a fun x hx => h x (List.mem_cons_of_mem _ hx)
    have ihys := ih fun x hx => h x (List.mem_cons_of_mem _ hx)
    constructor
    · intro he x hx
      have hc : y + ys.sum = a * ((ys.length : ℚ) + 1) := by
        simpa [List.sum_cons, List.length_cons] using he
      have hya : y = a := by nlinarith
      rcases List.mem_cons.mp hx with rfl | hx'
      · exact hya
      · exact ihys.mp (by nlinarith) x hx'
    · intro hall
      have hya : y = a := hall y (by simp)
      have hsum : ys.sum = a * ys.length :=
        ihys.mpr fun x hx => hall x (List.mem_cons_of_mem _ hx)
      simp only [List.sum_cons, List.length_cons, hya, hsum]
      push_cast
      ring

lemma le_npMean (l : List ℚ) (a : ℚ) (hne : l ≠ []) (h : ∀ x ∈ l, a ≤ x) :
    a ≤ npMean l := by
  have hlen : (0 : ℚ) < l.length := by
    exact_mod_cast List.length_pos.mpr hne
  rw [npMean, le_div_iff₀ hlen]
  exact mul_length_le_sum l a h

lemma npMean_eq_iff (l : List ℚ) (a : ℚ) (hne : l ≠ []) (h : ∀ x ∈ l, a ≤ x) :
    npMean l = a ↔ ∀ x ∈ l, x = a := by
  have hlen : (l.length : ℚ) ≠ 0 := by
    have := List.length_pos.mpr hne
    positivity
  rw [npMean, div_eq_iff hlen]
  exact sum_eq_mul_length_iff l a h

lemma npMean_singleton (x : ℚ) : npMean [x] = x := by
  simp [npMean]

lemma sorted_drop_ge (s : List ℚ) (hs : List.Sorted (· ≤ ·) s) (k : ℕ)
    (hk : k < s.length) : ∀ x ∈ s.drop k, s.getD k 0 ≤ x := by
  intro x hx
  obtain ⟨j, hj, rfl⟩ := List.mem_iff_getElem.mp hx
  rw [List.getElem_drop, List.getD_eq_getElem s 0 hk]
  have hkj : k + j < s.length := by
    have := List.length_drop k s ▸ hj
    omega
  rcases Nat.eq_zero_or_pos j with hj0 | hj0
  · subst hj0
    simp
  · exact List.pairwise_iff_getElem.mp hs k (k + j) hk hkj (by omega)

lemma idxVar_eq_coe (alpha : ℚ) (n : ℕ) (ha : 0 ≤ alpha) (hn : 1 ≤ n) :
    idxVar alpha n = (varSpecIdx alpha n : ℤ) := by
  have hF : (0 : ℤ) ≤ Int.floor (alpha * n) := Int.floor_nonneg.mpr (by positivity)
  unfold idxVar varSpecIdx
  omega

lemma varSpecIdx_lt (alpha : ℚ) (n : ℕ) (hn : 1 ≤ n) : varSpecIdx alpha n < n := by
  unfold varSpecIdx
  omega

lemma crm_VaR (losses : List ℚ) (alpha : ℚ) (hne : losses ≠ []) (ha : 0 ≤ alpha) :
    (compute_risk_metrics losses alpha).VaR =
      (npSortQ losses).getD (varSpecIdx alpha losses.length) 0 := by
  have hn0 : ¬ losses.length = 0 := by simpa [List.length_eq_zero] using hne
  have hn1 : 1 ≤ losses.length := by omega
  simp only [compute_risk_metrics, hn0, if_false]
  rw [idxVar_eq_coe _ _ ha hn1, npGet_coe]

lemma crm_tail (losses : List ℚ) (alpha : ℚ) (hne : losses ≠ []) (ha : 0 ≤ alpha) :
    varTail losses alpha =
      (npSortQ losses).drop (varSpecIdx alpha losses.length) := by
  have hn1 : 1 ≤ losses.length := by
    have : ¬ losses.length = 0 := by simpa [List.length_eq_zero] using hne
    omega
  rw [varTail, idxVar_eq_coe _ _ ha hn1, npDrop_coe]

lemma varTail_ne_nil (losses : List ℚ) (alpha : ℚ) (hne : losses ≠ [])
    (ha : 0 ≤ alpha) : varTail losses alpha ≠ [] := by
  have hn0 : ¬ losses.length = 0 := by simpa [List.length_eq_zero] using hne
  have hn1 : 1 ≤ losses.length := by omega
  rw [crm_tail losses alpha hne ha]
  have hk := varSpecIdx_lt alpha losses.length hn1
  have hpos : 0 < ((npSortQ losses).drop (varSpecIdx alpha losses.length)).length := by
    rw [List.length_drop, npSortQ_length]
    omega
  exact List.length_pos.mp hpos

lemma crm_CVaR (losses : List ℚ) (alpha : ℚ) (hne : losses ≠ []) (ha : 0 ≤ alpha) :
    (compute_risk_metrics losses alpha).CVaR =
      npMean ((npSortQ losses).drop (varSpecIdx alpha losses.length)) := by
  have hn0 : ¬ losses.length = 0 := by simpa [List.length_eq_zero] using hne
  have hn1 : 1 ≤ losses.length := by omega
  have htail : npDrop (npSortQ losses) (idxVar alpha losses.length) =
      (npSortQ losses).drop (varSpecIdx alpha losses.length) := by
    rw [idxVar_eq_coe _ _ ha hn1, npDrop_coe]
  have hpos : 0 < ((npSortQ losses).drop (varSpecIdx alpha losses.length)).length := by
    rw [List.length_drop, npSortQ_length]
    have := varSpecIdx_lt alpha losses.length hn1
    omega
  simp only [compute_risk_metrics, hn0, if_false, htail, hpos, if_true]

lemma crm_EL (losses : List ℚ) (alpha : ℚ) (hne : losses ≠ []) :
    (compute_risk_metrics losses alpha).EL = npMean losses := by
  have hn0 : ¬ losses.length = 0 := by simpa [List.length_eq_zero] using hne
  simp only [compute_risk_metrics, hn0, if_false]

lemma crm_UL (losses : List ℚ) (alpha : ℚ) (hne : losses ≠ []) :
    (compute_risk_metrics losses alpha).UL =
      max 0 ((compute_risk_metrics losses alpha).CVaR -
        (compute_risk_metrics losses alpha).EL) := by
  have hn0 : ¬ losses.length = 0 := by simpa [List.length_eq_zero] using hne
  simp only [compute_risk_metrics, hn0, if_false]

/- ═════════════════════ Claim theorems: risk metrics ═════════════════════ -/

/-- C1: for every non-empty loss sample and confidence `α ≥ 0`,
`compute_risk_metrics` returns VaR equal to the element at index
`⌊α·n⌋`, clipped to the last index `n−1`, of the ascending-sorted sample,
returns CVaR equal to the mean of all sorted samples at or beyond that
index, and CVaR collapses to VaR whenever that tail has at most one
element. -/
theorem compute_risk_metrics_matches_spec (losses : List ℚ) (alpha : ℚ)
    (hne : losses ≠ []) (ha : 0 ≤ alpha) :
    (compute_risk_metrics losses alpha).VaR = varSpec losses alpha ∧
    (compute_risk_metrics losses alpha).CVaR = cvarSpec losses alpha ∧
    ((varTail losses alpha).length ≤ 1 →
      (compute_risk_metrics losses alpha).CVaR =
        (compute_risk_metrics losses alpha).VaR) := by
  refine ⟨crm_VaR _ _ hne ha, crm_CVaR _ _ hne ha, ?_⟩
  intro hlen
  have htne := varTail_ne_nil losses alpha hne ha
  have h1 : (varTail losses alpha).length = 1 := by
    have := List.length_pos.mpr htne
    omega
  obtain ⟨x, hx⟩ := List.length_eq_one.mp h1
  have hn0 : ¬ losses.length = 0 := by simpa [List.length_eq_zero] using hne
  have hn1 : 1 ≤ losses.length := by omega
  have hk : varSpecIdx alpha losses.length < (npSortQ losses).length := by
    rw [npSortQ_length]
    exact varSpecIdx_lt _ _ hn1
  have hdrop : (npSortQ losses).drop (varSpecIdx alpha losses.length) = [x] := by
    rw [← crm_tail _ _ hne ha]
    exact hx
  have hcons := List.drop_eq_getElem_cons hk
  rw [hdrop] at hcons
  have hxk : (npSortQ losses).getD (varSpecIdx alpha losses.length) 0 = x := by
    rw [List.getD_eq_getElem _ 0 hk]
    exact ((List.cons.injEq _ _ _ _).mp hcons.symm).1
  rw [crm_CVaR _ _ hne ha, crm_VaR _ _ hne ha, hdrop, npMean_singleton, hxk]

/-- C4 counterexample: for the loss sample `[0, 0]` at confidence
`α = 1/4 ∈ (0,1)` the returned CVaR equals the returned VaR although the
tail contains two samples, not exactly one. -/
theorem cvar_eq_var_with_two_sample_tail :
    (compute_risk_metrics [0, 0] (1/4)).CVaR =
      (compute_risk_metrics [0, 0] (1/4)).VaR ∧
    (varTail [0, 0] (1/4)).length = 2 := by
  constructor <;>
    norm_num [compute_risk_metrics, varTail, npSortQ, npMean, npGet, npDrop,
      idxVar, List.insertionSort, List.orderedInsert, List.getD]

/-- C4 (amended): for every non-empty loss sample and `α ∈ (0,1)`, the
CVaR returned by `compute_risk_metrics` is ≥ the returned VaR, and
equality holds exactly when every sample of the tail equals the VaR (in
particular whenever the tail has exactly one element). -/
theorem cvar_ge_var (losses : List ℚ) (alpha : ℚ) (hne : losses ≠ [])
    (h0 : 0 < alpha) (h1 : alpha < 1) :
    (compute_risk_metrics losses alpha).VaR ≤
      (compute_risk_metrics losses alpha).CVaR ∧
    ((compute_risk_metrics losses alpha).CVaR =
        (compute_risk_metrics losses alpha).VaR ↔
      ∀ x ∈ varTail losses alpha,
        x = (compute_risk_metrics losses alpha).VaR) := by
  have ha : 0 ≤ alpha := le_of_lt h0
  have hn0 : ¬ losses.length = 0 := by simpa [List.length_eq_zero] using hne
  have hn1 : 1 ≤ losses.length := by omega
  have hk : varSpecIdx alpha losses.length < (npSortQ losses).length := by
    rw [npSortQ_length]
    exact varSpecIdx_lt _ _ hn1
  have hge : ∀ x ∈ (npSortQ losses).drop (varSpecIdx alpha losses.length),
      (npSortQ losses).getD (varSpecIdx alpha losses.length) 0 ≤ x :=
    sorted_drop_ge _ (npSortQ_sorted losses) _ hk
  have htne : (npSortQ losses).drop (varSpecIdx alpha losses.length) ≠ [] := by
    rw [← crm_tail _ _ hne ha]
    exact varTail_ne_nil _ _ hne ha
  rw [crm_VaR _ _ hne ha, crm_CVaR _ _ hne ha, crm_tail _ _ hne ha]
  exact ⟨le_npMean _ _ htne hge, npMean_eq_iff _ _ htne hge⟩

/-- C7: `compute_risk_metrics` tolerates degenerate input: the empty
sample yields the all-zero metrics record, and a single-element sample
`[x]` yields VaR = CVaR = EL = x and UL = 0 (for any confidence α ≥ 0). -/
theorem compute_risk_metrics_degenerate (x alpha : ℚ) (ha : 0 ≤ alpha) :
    compute_risk_metrics [] alpha = {} ∧
    (compute_risk_metrics [x] alpha).VaR = x ∧
    (compute_risk_metrics [x] alpha).CVaR = x ∧
    (compute_risk_metrics [x] alpha).EL = x ∧
    (compute_risk_metrics [x] alpha).UL = 0 := by
  have hne : ([x] : List ℚ) ≠ [] := by simp
  have hidx : varSpecIdx alpha 1 = 0 := by
    unfold varSpecIdx
    omega
  have hsort : npSortQ [x] = [x] := rfl
  have hVaR : (compute_risk_metrics [x] alpha).VaR = x := by
    rw [crm_VaR _ _ hne ha]
    simp [hsort, hidx]
  have hCVaR : (compute_risk_metrics [x] alpha).CVaR = x := by
    rw [crm_CVaR _ _ hne ha]
    simp [hsort, hidx, npMean_singleton]
  have hEL : (compute_risk_metrics [x] alpha).EL = x := by
    rw [crm_EL _ _ hne]
    exact npMean_singleton x
  refine ⟨rfl, hVaR, hCVaR, hEL, ?_⟩
  rw [crm_UL _ _ hne, hCVaR, hEL]
  simp

/-- C10: `compute_risk_metrics` never modifies its input loss array — the
buffer handed back after the call is element-wise the input, and the
metrics produced agree with the pure reading of the function; the sorted
sample stored in the result is the sorted rearrangement, computed apart
from the input buffer. -/
theorem compute_risk_metrics_preserves_input (losses : List ℚ) (alpha : ℚ) :
    (compute_risk_metricsSt losses alpha).2 = losses ∧
    (compute_risk_metricsSt losses alpha).1 = compute_risk_metrics losses alpha ∧
    (compute_risk_metricsSt losses alpha).1.sorted = npSortQ losses := by
  by_cases h : losses.length = 0
  · have hnil : losses = [] := List.length_eq_zero.mp h
    subst hnil
    exact ⟨rfl, rfl, rfl⟩
  · refine ⟨?_, ?_, ?_⟩ <;>
      simp [compute_risk_metricsSt, compute_risk_metrics, npSortSt, npMeanSt,
        npCenterSqSt, h]

/-- C2 counterexample: on a dataset of 168 hours the Dunkelflaute scenario
(duration 336 h) has its structural impact computed with the affected
fraction clipped at 1, so it differs from the claimed closed form
`dp · Vt · (dur/T) · (1 − hedge_ratio)`. -/
theorem run_stress_test_struct_fraction_clipped :
    (run_stress_test ⟨List.replicate 168 1, 168⟩ dunkelflaute).struct_impact =
      41160 ∧
    dunkelflaute.price_shock * (List.replicate 168 (1 : ℚ)).sum *
        (dunkelflaute.duration_hours / 168) * (1 - 3/10) = 82320 := by
  constructor
  · norm_num [run_stress_test, dunkelflaute, npMean, List.sum_replicate]
  · norm_num [dunkelflaute, List.sum_replicate]

/-- C2 (amended): for every dataset with positive total volume and every
named stress scenario, `run_stress_test` returns exactly
`vp_loss = avg_load·dv·dp·dur`,
`imb_loss = |avg_load·dv|·40·dur` (fixed elevated stress penalty 40),
`struct_impact = dp·Vt·min(1, dur/T)·(1 − 0.3)` (the affected fraction is
clipped at one), `total` their sum, and `per_mwh = total/Vt`; everything
is a deterministic closed form, with no random sampling. -/
theorem run_stress_test_closed_form (data : StressData) (sc : StressScenario)
    (hsc : sc ∈ stressScenarios) (hV : 0 < data.load.sum) :
    (run_stress_test data sc).vp_loss =
      npMean data.load * sc.vol_shock * sc.price_shock * sc.duration_hours ∧
    (run_stress_test data sc).imb_loss =
      |npMean data.load * sc.vol_shock| * 40 * sc.duration_hours ∧
    (run_stress_test data sc).struct_impact =
      sc.price_shock * data.load.sum *
        min 1 (sc.duration_hours / (data.n_hours : ℚ)) * (1 - 3/10) ∧
    (run_stress_test data sc).total =
      (run_stress_test data sc).vp_loss + (run_stress_test data sc).imb_loss +
        (run_stress_test data sc).struct_impact ∧
    (run_stress_test data sc).per_mwh =
      (run_stress_test data sc).total / data.load.sum := by
  refine ⟨by ring_nf; rfl, rfl, rfl, rfl, ?_⟩
  simp only [run_stress_test, hV, if_true]

/-- Witness for `run_stress_test_closed_form`: the Dunkelflaute scenario
(price shock +350 €/MWh, volume shock +20 %, 336 h) on a concrete 8760-h
dataset with loads `[2, 4]`. -/
theorem run_stress_test_closed_form_witness :
    (run_stress_test ⟨[2, 4], 8760⟩ dunkelflaute).vp_loss =
      npMean [2, 4] * dunkelflaute.vol_shock * dunkelflaute.price_shock *
        dunkelflaute.duration_hours ∧
    (run_stress_test ⟨[2, 4], 8760⟩ dunkelflaute).imb_loss =
      |npMean [2, 4] * dunkelflaute.vol_shock| * 40 *
        dunkelflaute.duration_hours ∧
    (run_stress_test ⟨[2, 4], 8760⟩ dunkelflaute).struct_impact =
      dunkelflaute.price_shock * ([2, 4] : List ℚ).sum *
        min 1 (dunkelflaute.duration_hours / ((8760 : ℕ) : ℚ)) * (1 - 3/10) ∧
    (run_stress_test ⟨[2, 4], 8760⟩ dunkelflaute).total =
      (run_stress_test ⟨[2, 4], 8760⟩ dunkelflaute).vp_loss +
        (run_stress_test ⟨[2, 4], 8760⟩ dunkelflaute).imb_loss +
        (run_stress_test ⟨[2, 4], 8760⟩ dunkelflaute).struct_impact ∧
    (run_stress_test ⟨[2, 4], 8760⟩ dunkelflaute).per_mwh =
      (run_stress_test ⟨[2, 4], 8760⟩ dunkelflaute).total /
        ([2, 4] : List ℚ).sum :=
  run_stress_test_closed_form ⟨[2, 4], 8760⟩ dunkelflaute
    (by simp [stressScenarios]) (by norm_num)

/- ════════════ Supporting lemmas about the simulation engine ════════════ -/

lemma foldl_invariant {α β : Type} (P : β → Prop) (f : β → α → β)
    (l : List α) (init : β) (h0 : P init)
    (hstep : ∀ b a, P b → P (f b a)) : P (l.foldl f init) := by
  induction l generalizing init with
  | nil => exact h0
  | cons a as ih => exact ih _ (hstep _ _ h0)

lemma addAt_nonneg (v : ℚ) (hv : 0 ≤ v) :
    ∀ (row : List ℚ) (y : ℕ), (∀ x ∈ row, 0 ≤ x) →
      ∀ x ∈ addAt row y v, 0 ≤ x := by
  intro row
  induction row with
  | nil =>
    intro y _
    simp [addAt]
  | cons a as ih =>
    intro y hrow
    cases y with
    | zero =>
      intro x hx
      rcases List.mem_cons.mp hx with rfl | hx'
      · have := hrow a (by simp)
        linarith
      · exact hrow x (List.mem_cons_of_mem _ hx')
    | succ y' =>
      intro x hx
      rcases List.mem_cons.mp hx with rfl | hx'
      · exact hrow x (by simp)
      · exact ih y' (fun z hz => hrow z (List.mem_cons_of_mem _ hz)) x hx'

lemma hourScaleTable_nonneg : ∀ x ∈ hourScaleTable, 0 ≤ x := by
  norm_num [hourScaleTable]

lemma hourImbalanceScale_nonneg (h : ℕ) : 0 ≤ hourImbalanceScale h := by
  unfold hourImbalanceScale
  rcases Nat.lt_or_ge h hourScaleTable.length with hlt | hge
  · rw [List.getD_eq_getElem _ _ hlt]
    exact hourScaleTable_nonneg _ (List.getElem_mem hlt)
  · rw [List.getD_eq_default _ _ hge]

lemma simStep_imb_nonneg (rt : ℚ → ℚ) (p : SimParams) (d : SimData) (t : ℕ)
    (dr : PathDraws) (st : PathState)
    (hrow : ∀ x ∈ st.imbRow, 0 ≤ x) :
    ∀ x ∈ (simStep rt p d t dr st).imbRow, 0 ≤ x := by
  have hpen : 0 ≤ (5 + |dr.pz| * 15) * hourImbalanceScale (d.hours.getD t 0) := by
    have h1 : (0 : ℚ) ≤ 5 + |dr.pz| * 15 := by positivity
    exact mul_nonneg h1 (hourImbalanceScale_nonneg _)
  have hterm : 0 ≤ |max 0 (d.load.getD t 0 * (1 + (p.phi * st.vs +
      rt (arScaleArg p.phi) * (p.vol_error / 100) *
        (p.correlation / 100 * dr.z1 + rt (cholArg (p.correlation / 100)) * dr.z2)))) -
      d.load.getD t 0| * ((5 + |dr.pz| * 15) *
        hourImbalanceScale (d.hours.getD t 0)) :=
    mul_nonneg (abs_nonneg _) hpen
  exact addAt_nonneg _ hterm _ _ hrow

/-- C5: for every square root, dataset, parameter record and draw stream,
every per-path per-year imbalance-loss entry accumulated by
`run_simulation` is ≥ 0 (the per-hour contribution `|Δq| · penalty` is
non-negative regardless of the sign of `Δq`), whereas the volume-price
entry may be of either sign: on the concrete one-hour dataset an upward
jump yields `vp = +50` and a downward jump yields `vp = −105`, with the
imbalance entry `13/8 ≥ 0` in both runs. -/
theorem imbalance_nonneg_vp_two_sided :
    (∀ (rt : ℚ → ℚ) (p : SimParams) (d : SimData) (draws : ℕ → ℕ → PathDraws),
      ∀ st ∈ run_simulation rt p d draws, ∀ x ∈ st.imbRow, 0 ≤ x) ∧
    run_simulation rtOne simParamsJump simDataUnit drawsUp =
      [⟨110, 1/2, 0, [13/8], [50]⟩] ∧
    run_simulation rtOne simParamsJump simDataUnit drawsDown =
      [⟨-200, 1/2, 0, [13/8], [-105]⟩] := by
  refine ⟨?_, ?_, ?_⟩
  · intro rt p d draws st hst
    obtain ⟨i, _, rfl⟩ := List.mem_map.mp hst
    unfold runPath
    exact foldl_invariant (fun b => ∀ x ∈ b.imbRow, 0 ≤ x)
      (fun st t => simStep rt p d t (draws i t) st) (List.range d.n_hours)
      (initState d p) (by simp [initState])
      (fun b a hb => simStep_imb_nonneg rt p d a (draws i a) b hb)
  · norm_num [run_simulation, runPath, simStep, initState, simDataUnit,
      simParamsJump, drawsUp, rtOne, cholArg, arScaleArg,
      seasonalVolMultiplier, hourImbalanceScale, hourScaleTable, addAt,
      List.getD, show List.range 1 = [0] by decide,
      show |(1:ℚ)/2| = 1/2 from abs_of_nonneg (by norm_num)]
  · norm_num [run_simulation, runPath, simStep, initState, simDataUnit,
      simParamsJump, drawsDown, rtOne, cholArg, arScaleArg,
      seasonalVolMultiplier, hourImbalanceScale, hourScaleTable, addAt,
      List.getD, show List.range 1 = [0] by decide,
      show |(1:ℚ)/2| = 1/2 from abs_of_nonneg (by norm_num)]

/-- Witness for the universally quantified part of
`imbalance_nonneg_vp_two_sided`, instantiated on the concrete upward-jump
run: its only imbalance entry is non-negative. -/
theorem imbalance_nonneg_witness : (0 : ℚ) ≤ 13/8 :=
  imbalance_nonneg_vp_two_sided.1 rtOne simParamsJump simDataUnit drawsUp
    ⟨110, 1/2, 0, [13/8], [50]⟩
    (by rw [imbalance_nonneg_vp_two_sided.2.1]; exact List.mem_singleton.mpr rfl)
    (13/8) (List.mem_singleton.mpr rfl)

lemma foldl_range_congr {β : Type} (T : ℕ) (f g : β → ℕ → β) (init : β)
    (h : ∀ b t, t < T → f b t = g b t) :
    (List.range T).foldl f init = (List.range T).foldl g init := by
  induction T with
  | zero => rfl
  | succ n ih =>
    rw [List.range_succ, List.foldl_append, List.foldl_append,
      ih fun b t ht => h b t (Nat.lt_succ_of_lt ht)]
    simp only [List.foldl_cons, List.foldl_nil]
    rw [h _ n (Nat.lt_succ_self n)]

/-- C6: the loss accumulation of `run_simulation` is a deterministic
function of the dataset, the parameters and the random-number stream it
consumes: two runs whose draw streams agree for every path `i < N` at
every hour `t < T` produce identical per-path per-year loss states.  In
particular two runs from an identical seed (which fixes the whole NumPy
stream, `np.random.seed(params["seed"])` in
`run_simulation_and_display`) produce identical imbalance and
volume-price matrices. -/
theorem run_simulation_reproducible (rt : ℚ → ℚ) (p : SimParams)
    (d : SimData) (s1 s2 : ℕ → ℕ → PathDraws)
    (h : ∀ i < p.paths, ∀ t < d.n_hours, s1 i t = s2 i t) :
    run_simulation rt p d s1 = run_simulation rt p d s2 := by
  unfold run_simulation
  apply List.map_congr_left
  intro i hi
  unfold runPath
  exact foldl_range_congr d.n_hours _ _ (initState d p)
    fun b t ht => by rw [h i (List.mem_range.mp hi) t ht]

/-- Witness for `run_simulation_reproducible`: the concrete upward-jump
configuration, run twice from the same stream. -/
theorem run_simulation_reproducible_witness :
    run_simulation rtOne simParamsJump simDataUnit drawsUp =
      run_simulation rtOne simParamsJump simDataUnit drawsUp :=
  run_simulation_reproducible rtOne simParamsJump simDataUnit drawsUp
    drawsUp fun _ _ _ _ => rfl

/-- C3 (code evaluated at the failing inputs): `run_simulation` performs
no parameter validation.  With `φ = 3/2 ≥ 1` the AR(1) variance argument
`1 − φ²` is negative and is silently clamped to `1e-12`, and the hourly
loop runs to completion returning a result; with a non-stationary GARCH
calibration `α + β = 11/10 ≥ 1` the loop likewise runs to completion
(only the variance safety band `[0.5, 8000]` applies); with `N = 0` paths
the engine returns an empty result list.  In no case is the request
rejected with the offending parameter named. -/
theorem run_simulation_no_validation :
    ((1 : ℚ) - simParamsBadPhi.phi ^ 2 < 0 ∧
      arScaleArg simParamsBadPhi.phi = 1/10^12) ∧
    run_simulation rtOne simParamsBadPhi simDataUnit drawsZero =
      [⟨10, 0, 0, [0], [0]⟩] ∧
    ((1 : ℚ) ≤ simParamsBadGarch.garch_alpha + simParamsBadGarch.garch_beta ∧
      run_simulation rtOne simParamsBadGarch simDataUnit drawsZero =
        [⟨10, 0, 5, [0], [0]⟩]) ∧
    run_simulation rtOne simParamsZeroPaths simDataUnit drawsZero = [] := by
  refine ⟨⟨by norm_num [simParamsBadPhi], by norm_num [arScaleArg, simParamsBadPhi]⟩,
    ?_, ⟨by norm_num [simParamsBadGarch], ?_⟩, rfl⟩
  · norm_num [run_simulation, runPath, simStep, initState, simDataUnit,
      simParamsBadPhi, drawsZero, rtOne, cholArg, arScaleArg,
      seasonalVolMultiplier, hourImbalanceScale, hourScaleTable, addAt,
      List.getD, show List.range 1 = [0] by decide]
  · norm_num [run_simulation, runPath, simStep, initState, simDataUnit,
      simParamsBadGarch, drawsZero, rtOne, cholArg, arScaleArg,
      seasonalVolMultiplier, hourImbalanceScale, hourScaleTable, addAt,
      List.getD, show List.range 1 = [0] by decide]

lemma effAR1Var_pos (phi : ℝ) : 0 < effAR1Var phi := by
  unfold effAR1Var
  have hm : (0 : ℝ) < max (1/1000000) (1 - phi ^ 2) :=
    lt_max_iff.mpr (Or.inl (by norm_num))
  exact one_div_pos.mpr hm

/-- C9 counterexample: perturbing `φ` from 0 to 3/5 on a base result with
structural premium 0 and unit forecast-risk and volume-price premiums,
the code returns `5/2` (both premiums scaled by
`√((25/16)/1) = 5/4`), while scaling by the ratio of effective AR(1)
variances `25/16` itself would give `25/8`. -/
theorem analytical_phi_not_variance_ratio :
    analyticalPremiumApproxPhi 0 ⟨0, 0, 1, 1⟩ (3/5) = 5/2 ∧
    (⟨0, 0, 1, 1⟩ : BaseResult).struktur +
      (⟨0, 0, 1, 1⟩ : BaseResult).prognose * (effAR1Var (3/5) / effAR1Var 0) +
      (⟨0, 0, 1, 1⟩ : BaseResult).vp_prem * (effAR1Var (3/5) / effAR1Var 0) =
        25/8 ∧
    (5/2 : ℝ) ≠ 25/8 := by
  have h0 : effAR1Var 0 = 1 := by
    unfold effAR1Var
    rw [max_eq_right (by norm_num : (1 : ℝ)/1000000 ≤ 1 - 0 ^ 2)]
    norm_num
  have h35 : effAR1Var (3/5) = 25/16 := by
    unfold effAR1Var
    rw [max_eq_right (by norm_num : (1 : ℝ)/1000000 ≤ 1 - (3/5) ^ 2)]
    norm_num
  refine ⟨?_, ?_, by norm_num⟩
  · unfold analyticalPremiumApproxPhi
    dsimp only
    rw [h0, h35, if_pos (by norm_num : (0 : ℝ) < 1)]
    have hsq : Real.sqrt (25/16 / 1) = 5/4 := by
      rw [show (25/16 : ℝ) / 1 = (5/4) ^ 2 by norm_num,
        Real.sqrt_sq (by norm_num : (0 : ℝ) ≤ 5/4)]
    rw [hsq]
    norm_num
  · rw [h0, h35]
    norm_num

/-- C9 (amended): for every base result and perturbed persistence
`φ_new`, the phi branch of the analytical premium approximation scales
the forecast-risk and volume-price premiums by the same factor
`min(5, √(eff_new/eff_old))` — the square root of the ratio of effective
AR(1) variances `eff(φ) = 1/max(1e-6, 1−φ²)`, capped at 5 — and leaves
the structural premium unchanged. -/
theorem analytical_phi_scales_premiums (phi_orig new_value : ℝ)
    (base : BaseResult) :
    analyticalPremiumApproxPhi phi_orig base new_value =
      base.struktur + (base.prognose + base.vp_prem) *
        min 5 (Real.sqrt (effAR1Var new_value / effAR1Var phi_orig)) := by
  unfold analyticalPremiumApproxPhi
  dsimp only
  rw [if_pos (effAR1Var_pos phi_orig)]
  ring

/-- Witness for `compute_risk_metrics_matches_spec`: the sample
`[3, 1, 2]` at confidence `1/2`. -/
theorem compute_risk_metrics_matches_spec_witness :
    (compute_risk_metrics [3, 1, 2] (1/2)).VaR = varSpec [3, 1, 2] (1/2) ∧
    (compute_risk_metrics [3, 1, 2] (1/2)).CVaR = cvarSpec [3, 1, 2] (1/2) ∧
    ((varTail [3, 1, 2] (1/2)).length ≤ 1 →
      (compute_risk_metrics [3, 1, 2] (1/2)).CVaR =
        (compute_risk_metrics [3, 1, 2] (1/2)).VaR) :=
  compute_risk_metrics_matches_spec [3, 1, 2] (1/2) (by simp) (by norm_num)

/-- Witness for `cvar_ge_var`: the sample `[0, 1]` at confidence `1/2`. -/
theorem cvar_ge_var_witness :
    (compute_risk_metrics [0, 1] (1/2)).VaR ≤
      (compute_risk_metrics [0, 1] (1/2)).CVaR ∧
    ((compute_risk_metrics [0, 1] (1/2)).CVaR =
        (compute_risk_metrics [0, 1] (1/2)).VaR ↔
      ∀ x ∈ varTail [0, 1] (1/2),
        x = (compute_risk_metrics [0, 1] (1/2)).VaR) :=
  cvar_ge_var [0, 1] (1/2) (by simp) (by norm_num) (by norm_num)

/-- Witness for `compute_risk_metrics_degenerate`: the single loss `7` at
confidence `19/20`. -/
theorem compute_risk_metrics_degenerate_witness :
    compute_risk_metrics [] (19/20) = {} ∧
    (compute_risk_metrics [7] (19/20)).VaR = 7 ∧
    (compute_risk_metrics [7] (19/20)).CVaR = 7 ∧
    (compute_risk_metrics [7] (19/20)).EL = 7 ∧
    (compute_risk_metrics [7] (19/20)).UL = 0 :=
  compute_risk_metrics_degenerate 7 (19/20) (by norm_num)
